import Mathlib

/-!
# Plugin interface resolution (ignition-common)

A shallow embedding of `src/Plugin.cc` and
`include/ignition/common/detail/SpecializedPluginPtr.hh`.

* `void*` is a natural number, `nullptr` is `0`.
* `std::function` members of `PluginInfo` act on an external component state `σ`;
  every invocation is recorded in a call trace.
* `std::map<std::string, void*>` is a key-sorted association list with unique keys;
  an iterator is a position in that list.
* `NormalizeName` is declared in `PluginUtils.hh`, outside the two files embedded here, so it
  is a parameter of every operation that uses it.
-/

/-! ## Pointers, calls and the world -/

/-- An opaque `void*`. -/
abbrev Ptr := Nat

/-- The null pointer. -/
def nullptr : Ptr := 0

/-- One invocation of a descriptor callback. -/
inductive Call where
  | factory (result : Ptr)
  | deleter (arg : Ptr)
  deriving DecidableEq, Repr

/-- The state outside the handle: the component state `ext` that factory and deleter act on,
and the trace of callback invocations, oldest first. -/
structure World (σ : Type) where
  ext : σ
  calls : List Call

/-- `PluginInfo`: the members used by `Plugin::Plugin`, namely `factory`, `deleter` and
`interfaces`, the latter as the sequence of entries the constructor iterates over. The
descriptor is a mapping: its names are pairwise distinct, which `PluginInfo.uniqueNames`
states. -/
structure PluginInfo (σ : Type) where
  factory : σ → Ptr × σ
  deleter : Ptr → σ → σ
  interfaces : List (String × (Ptr → Ptr))

/-- The names of a descriptor are pairwise distinct, as in a mapping. -/
def PluginInfo.uniqueNames {σ : Type} (info : PluginInfo σ) : Prop :=
  (info.interfaces.map Prod.fst).Nodup

/-- Invocation `info.factory()`. -/
def callFactory {σ : Type} (f : σ → Ptr × σ) (w : World σ) : Ptr × World σ :=
  ((f w.ext).1, { ext := (f w.ext).2, calls := w.calls ++ [Call.factory (f w.ext).1] })

/-- Invocation `pluginDeleter(p)`. -/
def callDeleter {σ : Type} (d : Ptr → σ → σ) (p : Ptr) (w : World σ) : World σ :=
  { ext := d p w.ext, calls := w.calls ++ [Call.deleter p] }

/-! ## `std::map<std::string, void*>` -/

/-- The entries of a `std::map<std::string, void*>`, in key order. -/
abbrev StdMap := List (String × Ptr)

namespace StdMap

/-- Member `find`: the position of the entry under `k`, or `none` for `end()`. -/
def find : StdMap → String → Option Nat
  | [], _ => none
  | e :: rest, k => if e.1 = k then some 0 else (find rest k).map (· + 1)

/-- Dereference `it->second`. -/
def second (m : StdMap) (it : Nat) : Ptr :=
  match m.get? it with
  | some e => e.2
  | none => nullptr

/-- The comparison `std::less<std::string>` on the characters of two keys: lexicographic order
by character code. -/
def keyLess : List Char → List Char → Bool
  | _, [] => false
  | [], _ :: _ => true
  | a :: as, b :: bs =>
    if a.toNat < b.toNat then true else if b.toNat < a.toNat then false else keyLess as bs

/-- Placement of a new entry before the first entry with a greater key. -/
def orderedInsert (e : String × Ptr) : StdMap → StdMap
  | [] => [e]
  | x :: xs => if keyLess e.1.data x.1.data then e :: x :: xs else x :: orderedInsert e xs

/-- Member `insert(value_type)`: no effect when the key is already present. -/
def insert (m : StdMap) (e : String × Ptr) : StdMap :=
  match find m e.1 with
  | some _ => m
  | none => orderedInsert e m

/-- The value stored under `k`, if any: `find` followed by `->second`. -/
def lookup (m : StdMap) (k : String) : Option Ptr :=
  (find m k).map (second m)

/-- The keys of the map, in order. -/
def keys (m : StdMap) : List String := m.map Prod.fst

end StdMap

/-! ## `Plugin` (Plugin.cc) -/

/-- `PluginPrivate`. -/
structure PluginPrivate (σ : Type) where
  interfaces : StdMap
  pluginInstance : Ptr
  pluginDeleter : Ptr → σ → σ

/-- `Plugin`: a handle owning its `PluginPrivate`. -/
structure Plugin (σ : Type) where
  dataPtr : PluginPrivate σ

/-- `Plugin::Plugin(const PluginInfo &info)`. -/
def Plugin.ctor {σ : Type} (info : PluginInfo σ) (w : World σ) : Plugin σ × World σ :=
  let r := callFactory info.factory w
  let inst : Ptr := r.1
  let interfaces : StdMap :=
    info.interfaces.foldl (fun m entry => StdMap.insert m (entry.1, entry.2 inst)) []
  ({ dataPtr := { interfaces := interfaces, pluginInstance := r.1,
                  pluginDeleter := info.deleter } }, r.2)

/-- `PluginPrivate::~PluginPrivate()`. -/
def PluginPrivate.dtor {σ : Type} (d : PluginPrivate σ) (w : World σ) : World σ :=
  callDeleter d.pluginDeleter d.pluginInstance w

/-- `Plugin::~Plugin()`: `delete dataPtr`. -/
def Plugin.dtor {σ : Type} (p : Plugin σ) (w : World σ) : World σ :=
  PluginPrivate.dtor p.dataPtr w

/-- `Plugin::GetInterface(const std::string &_interfaceName)`. -/
def Plugin.GetInterface {σ : Type} (NormalizeName : String → String) (p : Plugin σ)
    (_interfaceName : String) : Ptr :=
  let interfaceName := NormalizeName _interfaceName
  match StdMap.find p.dataPtr.interfaces interfaceName with
  | none => nullptr
  | some it => StdMap.second p.dataPtr.interfaces it

/-! ## `PluginPtr` (shared ownership, dynamic tier) -/

/-- An interface type: its identity as a type and its static member `InterfaceName`. -/
structure Interface where
  typeId : Nat
  InterfaceName : String
  deriving DecidableEq

/-- Modelled from the spec: the ownership record shared by every `PluginPtr` that refers to one
`Plugin` (PluginPtr.hh is not among the sources): the handle and the number of live owners. -/
structure SharedPlugin (σ : Type) where
  plugin : Plugin σ
  useCount : Nat

/-- Modelled from the spec: `PluginPtr`, the shared reference to one `Plugin` (PluginPtr.hh is
not among the sources); `none` when it was built from a null descriptor or released. -/
structure PluginPtr (σ : Type) where
  dataPtr : Option (SharedPlugin σ)

/-- Modelled from the spec: `PluginPtr::PluginPtr(const PluginInfo *_info)`, which builds one
`Plugin` from a non-null descriptor and becomes its first owner. -/
def PluginPtr.ctor {σ : Type} (info : Option (PluginInfo σ)) (w : World σ) :
    PluginPtr σ × World σ :=
  match info with
  | none => ({ dataPtr := none }, w)
  | some i =>
    let r := Plugin.ctor i w
    ({ dataPtr := some { plugin := r.1, useCount := 1 } }, r.2)

/-- Modelled from the spec: copying a reference adds one owner. -/
def PluginPtr.copy {σ : Type} (p : PluginPtr σ) : PluginPtr σ :=
  match p.dataPtr with
  | none => p
  | some s => { dataPtr := some { s with useCount := s.useCount + 1 } }

/-- Modelled from the spec: dropping one owner; the `Plugin` is destroyed when the last owner
goes. -/
def PluginPtr.release {σ : Type} (p : PluginPtr σ) (w : World σ) : PluginPtr σ × World σ :=
  match p.dataPtr with
  | none => (p, w)
  | some s =>
    if s.useCount ≤ 1 then ({ dataPtr := none }, Plugin.dtor s.plugin w)
    else ({ dataPtr := some { s with useCount := s.useCount - 1 } }, w)

/-- Dropping `n` owners one after the other. -/
def PluginPtr.releaseN {σ : Type} : Nat → PluginPtr σ → World σ → PluginPtr σ × World σ
  | 0, p, w => (p, w)
  | n + 1, p, w => PluginPtr.releaseN n (PluginPtr.release p w).1 (PluginPtr.release p w).2

/-- Adding `n` owners one after the other. -/
def PluginPtr.copyN {σ : Type} : Nat → PluginPtr σ → PluginPtr σ
  | 0, p => p
  | n + 1, p => PluginPtr.copyN n (PluginPtr.copy p)

/-- Modelled from the spec: `PluginPtr::GetInterface<Interface>()` (PluginPtr.hh is not among the
sources) takes the canonical name of the type and delegates to `Plugin::GetInterface`. -/
def PluginPtr.GetInterface {σ : Type} (NormalizeName : String → String) (p : PluginPtr σ)
    (T : Interface) : Ptr :=
  match p.dataPtr with
  | none => nullptr
  | some s => Plugin.GetInterface NormalizeName s.plugin T.InterfaceName

/-- Modelled from the spec: `PluginPtr::HasInterface<Interface>()`, the presence test of
`GetInterface`. -/
def PluginPtr.HasInterface {σ : Type} (NormalizeName : String → String) (p : PluginPtr σ)
    (T : Interface) : Bool :=
  decide (PluginPtr.GetInterface NormalizeName p T ≠ nullptr)

/-- Modelled from the spec: `PluginPtr::PrivateGetOrCreateIterator(name)` (PluginPtr.hh is not
among the sources): one lookup of the name, as in `GetInterface`, whose result is the position of
the entry; `none` is the null sentinel that stands for an absent interface. -/
def PluginPtr.PrivateGetOrCreateIterator {σ : Type} (NormalizeName : String → String)
    (p : PluginPtr σ) (name : String) : Option Nat :=
  match p.dataPtr with
  | none => none
  | some s => StdMap.find s.plugin.dataPtr.interfaces (NormalizeName name)

/-- Modelled from the spec: the read `privateSpecInterfaceIterator->second` through the iterator
that `PrivateGetOrCreateIterator` returned; a cached position reads the table entry, and the
null sentinel reads as null. -/
def PluginPtr.iteratorSecond {σ : Type} (p : PluginPtr σ) (it : Option Nat) : Ptr :=
  match it, p.dataPtr with
  | some i, some s => StdMap.second s.plugin.dataPtr.interfaces i
  | _, _ => nullptr

/-! ## `SpecializedPluginPtr` and `detail::ComposePlugin` (SpecializedPluginPtr.hh) -/

/-- The class structure of a specialised handle: `SpecializedPluginPtr<SpecInterface>` or
`detail::ComposePlugin<Base1, Base2>`. -/
inductive SpecType where
  | single (SpecInterface : Interface)
  | compose (Base1 Base2 : SpecType)
  deriving DecidableEq

/-- The class `SpecializedPluginPtr<SpecInterface1, OtherSpecInterfaces...>`: the single
specialisation for one interface, otherwise `ComposePlugin` of the first with the rest. -/
def SpecType.ofList (SpecInterface1 : Interface) : List Interface → SpecType
  | [] => SpecType.single SpecInterface1
  | I2 :: rest => SpecType.compose (SpecType.single SpecInterface1) (SpecType.ofList I2 rest)

/-- `SpecializedPluginPtr<SpecInterface>::PrivateIsSpecializedFor`: the overload for
`type<SpecInterface>` is chosen exactly when `Interface` is `SpecInterface`. -/
def PrivateIsSpecializedFor (SpecInterface T : Interface) : Bool :=
  if T = SpecInterface then true else false

/-- `IsSpecializedFor<T>()` of `SpecializedPluginPtr<SpecInterface>` and of
`ComposePlugin<Base1, Base2>`. -/
def SpecType.IsSpecializedFor : SpecType → Interface → Bool
  | SpecType.single SpecInterface, T => PrivateIsSpecializedFor SpecInterface T
  | SpecType.compose Base1 Base2, T =>
    (SpecType.IsSpecializedFor Base1 T || SpecType.IsSpecializedFor Base2 T)

/-- The per-interface sub-objects of a specialised handle, each with its
`privateSpecInterfaceIterator`. -/
inductive SpecObj where
  | single (SpecInterface : Interface) (privateSpecInterfaceIterator : Option Nat)
  | compose (Base1 Base2 : SpecObj)
  deriving DecidableEq

/-- The class of a sub-object. -/
def SpecObj.type : SpecObj → SpecType
  | SpecObj.single I _ => SpecType.single I
  | SpecObj.compose b1 b2 => SpecType.compose (SpecObj.type b1) (SpecObj.type b2)

/-- A specialised handle: the one `PluginPtr` virtual base shared by all sub-objects, and the
sub-objects. -/
structure SpecializedPluginPtr (σ : Type) where
  base : PluginPtr σ
  sub : SpecObj

/-- Initialisation of the sub-objects over the shared virtual base: every
`SpecializedPluginPtr<SpecInterface>` sub-object sets its iterator with
`PrivateGetOrCreateIterator(SpecInterface::InterfaceName)`; its own mem-initialiser for the
virtual base is not run, because it is not the most derived class. -/
def SpecObj.init {σ : Type} (NormalizeName : String → String) (base : PluginPtr σ) :
    SpecType → SpecObj
  | SpecType.single I =>
    SpecObj.single I (PluginPtr.PrivateGetOrCreateIterator NormalizeName base I.InterfaceName)
  | SpecType.compose b1 b2 =>
    SpecObj.compose (SpecObj.init NormalizeName base b1) (SpecObj.init NormalizeName base b2)

/-- `SpecializedPluginPtr<...>::SpecializedPluginPtr(const PluginInfo *_info)` for the most
derived class: `PluginPtr(_info)` once, then the sub-objects. -/
def SpecializedPluginPtr.ctor {σ : Type} (NormalizeName : String → String) (t : SpecType)
    (info : Option (PluginInfo σ)) (w : World σ) : SpecializedPluginPtr σ × World σ :=
  let r := PluginPtr.ctor info w
  ({ base := r.1, sub := SpecObj.init NormalizeName r.1 t }, r.2)

/-- `SpecializedPluginPtr<SpecInterface>::PrivateGetSpecInterface`: the overload for
`type<SpecInterface>` sets the test flag `usedSpecializedInterfaceAccess` and reads the cached
iterator; the overload for any other `type<Interface>` delegates to
`PluginPtr::GetInterface<Interface>()`. The result is the pointer and the new value of the
flag. -/
def PrivateGetSpecInterface {σ : Type} (NormalizeName : String → String) (base : PluginPtr σ)
    (SpecInterface : Interface) (privateSpecInterfaceIterator : Option Nat) (T : Interface)
    (flag : Bool) : Ptr × Bool :=
  if T = SpecInterface then (PluginPtr.iteratorSecond base privateSpecInterfaceIterator, true)
  else (PluginPtr.GetInterface NormalizeName base T, flag)

/-- `SpecializedPluginPtr<SpecInterface>::PrivateHasSpecInterface`: the overload for
`type<SpecInterface>` sets the test flag and compares the cached entry with null; the overload
for any other `type<Interface>` delegates to `PluginPtr::HasInterface<Interface>()`. -/
def PrivateHasSpecInterface {σ : Type} (NormalizeName : String → String) (base : PluginPtr σ)
    (SpecInterface : Interface) (privateSpecInterfaceIterator : Option Nat) (T : Interface)
    (flag : Bool) : Bool × Bool :=
  if T = SpecInterface then
    (decide (nullptr ≠ PluginPtr.iteratorSecond base privateSpecInterfaceIterator), true)
  else (PluginPtr.HasInterface NormalizeName base T, flag)

/-- Modelled from the spec: `GetInterface<T>()` of `ComposePlugin<Base1, Base2>`, generated by
the macro `DETAIL_IGN_COMMON_COMPOSEPLUGIN_DISPATCH_IMPL` (declared in SpecializedPluginPtr.hh,
which is not among the sources): the call goes to `Base1` when `Base1` is specialised for `T`
and to `Base2` otherwise. On `SpecializedPluginPtr<SpecInterface>` it is
`PrivateGetSpecInterface`. -/
def SpecObj.GetInterface {σ : Type} (NormalizeName : String → String) (base : PluginPtr σ) :
    SpecObj → Interface → Bool → Ptr × Bool
  | SpecObj.single I it, T, flag => PrivateGetSpecInterface NormalizeName base I it T flag
  | SpecObj.compose b1 b2, T, flag =>
    if SpecType.IsSpecializedFor (SpecObj.type b1) T then
      SpecObj.GetInterface NormalizeName base b1 T flag
    else SpecObj.GetInterface NormalizeName base b2 T flag

/-- Modelled from the spec: `HasInterface<T>()` of `ComposePlugin<Base1, Base2>`, generated by
the same dispatch macro. On `SpecializedPluginPtr<SpecInterface>` it is
`PrivateHasSpecInterface`. -/
def SpecObj.HasInterface {σ : Type} (NormalizeName : String → String) (base : PluginPtr σ) :
    SpecObj → Interface → Bool → Bool × Bool
  | SpecObj.single I it, T, flag => PrivateHasSpecInterface NormalizeName base I it T flag
  | SpecObj.compose b1 b2, T, flag =>
    if SpecType.IsSpecializedFor (SpecObj.type b1) T then
      SpecObj.HasInterface NormalizeName base b1 T flag
    else SpecObj.HasInterface NormalizeName base b2 T flag

/-- `GetInterface<T>()` on a specialised handle: the pointer it returns. -/
def SpecializedPluginPtr.GetInterface {σ : Type} (NormalizeName : String → String)
    (h : SpecializedPluginPtr σ) (T : Interface) : Ptr :=
  (SpecObj.GetInterface NormalizeName h.base h.sub T false).1

/-- `HasInterface<T>()` on a specialised handle. -/
def SpecializedPluginPtr.HasInterface {σ : Type} (NormalizeName : String → String)
    (h : SpecializedPluginPtr σ) (T : Interface) : Bool :=
  (SpecObj.HasInterface NormalizeName h.base h.sub T false).1

/-- `SpecializedPluginPtr<SpecInterface>::PrivateGetSpecInterface(...) const`: the const
overloads, with the same two bodies as the non-const ones. -/
def PrivateGetSpecInterface_const {σ : Type} (NormalizeName : String → String)
    (base : PluginPtr σ) (SpecInterface : Interface) (privateSpecInterfaceIterator : Option Nat)
    (T : Interface) (flag : Bool) : Ptr × Bool :=
  if T = SpecInterface then (PluginPtr.iteratorSecond base privateSpecInterfaceIterator, true)
  else (PluginPtr.GetInterface NormalizeName base T, flag)

/-- The pointers returned by `n` successive calls of `GetInterface<T>()` on one handle, in call
order, and the value of the test flag after the last call. -/
def SpecObj.GetInterfaceRepeat {σ : Type} (NormalizeName : String → String)
    (base : PluginPtr σ) (obj : SpecObj) (T : Interface) : Nat → Bool → List Ptr × Bool
  | 0, flag => ([], flag)
  | n + 1, flag =>
    let r := SpecObj.GetInterface NormalizeName base obj T flag
    let rest := SpecObj.GetInterfaceRepeat NormalizeName base obj T n r.2
    (r.1 :: rest.1, rest.2)

/-- The accessor a descriptor registers under a name: the first entry with that name in iteration
order. -/
def firstAccessor : List (String × (Ptr → Ptr)) → String → Option (Ptr → Ptr)
  | [], _ => none
  | e :: rest, k => if e.1 = k then some e.2 else firstAccessor rest k

/-! ## Sample data -/

/-- A sample name normaliser (namespace canonicalisation): a leading `::` is added unless the
name already has one. -/
def scopeNormalizer (s : String) : String :=
  if s.data.take 2 = [':', ':'] then s else "::" ++ s

/-- A sample descriptor: the factory returns the pointer `7` and counts constructions, the deleter
counts destructions, and the component implements `Shape` and `Drawable` through identity
accessors. -/
def widgetInfo : PluginInfo (Nat × Nat) where
  factory := fun s => (7, (s.1 + 1, s.2))
  deleter := fun _ s => (s.1, s.2 + 1)
  interfaces := [("Shape", id), ("Drawable", id)]

/-- The world before anything happened. -/
def World.init : World (Nat × Nat) := { ext := (0, 0), calls := [] }

/-- The interface type `Shape`. -/
def Shape : Interface := { typeId := 1, InterfaceName := "Shape" }

/-- The interface type `Drawable`. -/
def Drawable : Interface := { typeId := 2, InterfaceName := "Drawable" }

/-- An interface type the sample component does not implement. -/
def OtherIface : Interface := { typeId := 3, InterfaceName := "OtherIface" }

/-- A sample descriptor whose interface names carry the leading `::`. -/
def scopedWidgetInfo : PluginInfo (Nat × Nat) where
  factory := fun s => (7, (s.1 + 1, s.2))
  deleter := fun _ s => (s.1, s.2 + 1)
  interfaces := [("::Shape", id), ("::Drawable", id)]

/-- A sample descriptor with the two names `Shape` and `::Shape`, which differ and have the same
normal form `::Shape` under the scoping normaliser; the entry under `Shape`, whose accessor adds
one to the instance pointer, comes first, the entry under `::Shape`, whose accessor adds two,
comes later. -/
def plainThenScopedInfo : PluginInfo (Nat × Nat) where
  factory := fun s => (7, (s.1 + 1, s.2))
  deleter := fun _ s => (s.1, s.2 + 1)
  interfaces := [("Shape", fun p => p + 1), ("::Shape", fun p => p + 2)]

/-- The same two entries in the other order: the entry under `Shape` comes later. -/
def scopedThenPlainInfo : PluginInfo (Nat × Nat) where
  factory := fun s => (7, (s.1 + 1, s.2))
  deleter := fun _ s => (s.1, s.2 + 1)
  interfaces := [("::Shape", fun p => p + 2), ("Shape", fun p => p + 1)]

/-- A sample descriptor whose accessor for `Shape` returns null. -/
def nullAccessorInfo : PluginInfo (Nat × Nat) where
  factory := fun s => (7, (s.1 + 1, s.2))
  deleter := fun _ s => (s.1, s.2 + 1)
  interfaces := [("Shape", fun _ => nullptr)]

/-! ## Facts about the map -/

namespace StdMap

theorem lookup_nil (k : String) : lookup [] k = none := rfl

theorem lookup_cons (e : String × Ptr) (m : StdMap) (k : String) :
    lookup (e :: m) k = if e.1 = k then some e.2 else lookup m k := by
  unfold lookup
  by_cases h : e.1 = k
  · simp [find, h, second]
  · simp only [find, h, if_false, Option.map_map]
    congr 1

theorem find_eq_none_iff (m : StdMap) (k : String) : find m k = none ↔ lookup m k = none := by
  simp [lookup]

theorem lookup_eq_none_iff (m : StdMap) (k : String) : lookup m k = none ↔ k ∉ keys m := by
  induction m with
  | nil => simp [lookup_nil, keys]
  | cons e m ih =>
    rw [lookup_cons]
    by_cases h : e.1 = k
    · simp [h, keys]
    · simp only [h, if_false, ih, keys, List.map_cons, List.mem_cons, not_or]
      exact ⟨fun hk => ⟨fun hke => h hke.symm, hk⟩, fun hk => hk.2⟩

theorem lookup_orderedInsert (e : String × Ptr) (m : StdMap) (k : String)
    (hnew : lookup m e.1 = none) :
    lookup (orderedInsert e m) k = if e.1 = k then some e.2 else lookup m k := by
  induction m with
  | nil => simp [orderedInsert, lookup_cons, lookup_nil]
  | cons x xs ih =>
    rw [lookup_cons] at hnew
    by_cases hx : x.1 = e.1
    · simp [hx] at hnew
    · simp only [hx, if_false] at hnew
      unfold orderedInsert
      by_cases hlt : keyLess e.1.data x.1.data = true
      · simp only [hlt, if_true]
        rw [lookup_cons]
      · simp only [hlt, Bool.false_eq_true, if_false]
        rw [lookup_cons, ih hnew, lookup_cons]
        by_cases hxk : x.1 = k
        · have hek : ¬ e.1 = k := fun hek => hx (hxk.trans hek.symm)
          simp [hxk, hek]
        · simp [hxk]

theorem lookup_insert (m : StdMap) (e : String × Ptr) (k : String) :
    lookup (insert m e) k =
      match lookup m k with
      | some v => some v
      | none => if e.1 = k then some e.2 else none := by
  unfold insert
  cases hf : find m e.1 with
  | some i =>
    simp only
    cases hk : lookup m k with
    | some v => rfl
    | none =>
      have hne : ¬ e.1 = k := by
        intro hek
        rw [hek] at hf
        have := (find_eq_none_iff m k).2 hk
        rw [this] at hf
        cases hf
      simp [hne]
  | none =>
    simp only
    rw [lookup_orderedInsert e m k ((find_eq_none_iff m e.1).1 hf)]
    by_cases hek : e.1 = k
    · have : lookup m k = none := by
        rw [← hek]; exact (find_eq_none_iff m e.1).1 hf
      simp [hek, this]
    · cases hk : lookup m k <;> simp [hek]

theorem keys_orderedInsert_perm (e : String × Ptr) (m : StdMap) :
    List.Perm (keys (orderedInsert e m)) (e.1 :: keys m) := by
  induction m with
  | nil => simp [orderedInsert, keys]
  | cons x xs ih =>
    unfold orderedInsert
    by_cases hlt : keyLess e.1.data x.1.data = true
    · simp [hlt, keys]
    · simp only [hlt, Bool.false_eq_true, if_false]
      have h1 : List.Perm (keys (x :: orderedInsert e xs)) (x.1 :: e.1 :: keys xs) := by
        simpa [keys] using ih
      exact h1.trans (List.Perm.swap _ _ _)

theorem keys_insert_nodup (m : StdMap) (e : String × Ptr) (h : (keys m).Nodup) :
    (keys (insert m e)).Nodup := by
  unfold insert
  cases hf : find m e.1 with
  | some i => simpa using h
  | none =>
    simp only
    rw [(keys_orderedInsert_perm e m).nodup_iff, List.nodup_cons]
    exact ⟨(lookup_eq_none_iff m e.1).1 ((find_eq_none_iff m e.1).1 hf), h⟩

theorem lookup_of_mem (m : StdMap) (k : String) (v : Ptr) (hnd : (keys m).Nodup)
    (hmem : (k, v) ∈ m) : lookup m k = some v := by
  induction m with
  | nil => cases hmem
  | cons e m ih =>
    rw [lookup_cons]
    simp only [keys, List.map_cons, List.nodup_cons] at hnd
    rcases List.mem_cons.1 hmem with h | h
    · subst h; simp
    · have hne : ¬ e.1 = k := by
        intro hek
        apply hnd.1
        rw [hek]
        exact List.mem_map.2 ⟨(k, v), h, rfl⟩
      simp only [hne, if_false]
      exact ih hnd.2 h

theorem mem_of_lookup (m : StdMap) (k : String) (v : Ptr) (h : lookup m k = some v) :
    (k, v) ∈ m := by
  induction m with
  | nil => simp [lookup_nil] at h
  | cons e m ih =>
    rw [lookup_cons] at h
    by_cases hek : e.1 = k
    · simp only [hek, if_true, Option.some.injEq] at h
      have : e = (k, v) := Prod.ext hek h
      rw [this]; exact List.mem_cons_self _ _
    · simp only [hek, if_false] at h
      exact List.mem_cons_of_mem _ (ih h)

end StdMap

/-! ## Facts about the table built by the constructor -/

theorem firstAccessor_eq_none_iff (es : List (String × (Ptr → Ptr))) (k : String) :
    firstAccessor es k = none ↔ k ∉ es.map Prod.fst := by
  induction es with
  | nil => simp [firstAccessor]
  | cons e es ih =>
    unfold firstAccessor
    by_cases h : e.1 = k
    · simp [h]
    · simp only [h, if_false, ih, List.map_cons, List.mem_cons, not_or]
      exact ⟨fun hk => ⟨fun hke => h hke.symm, hk⟩, fun hk => hk.2⟩

theorem firstAccessor_of_mem (es : List (String × (Ptr → Ptr))) (k : String) (a : Ptr → Ptr)
    (hnd : (es.map Prod.fst).Nodup) (hmem : (k, a) ∈ es) : firstAccessor es k = some a := by
  induction es with
  | nil => cases hmem
  | cons e es ih =>
    unfold firstAccessor
    simp only [List.map_cons, List.nodup_cons] at hnd
    rcases List.mem_cons.1 hmem with h | h
    · subst h; simp
    · have hne : ¬ e.1 = k := by
        intro hek
        apply hnd.1
        rw [hek]
        exact List.mem_map.2 ⟨(k, a), h, rfl⟩
      simp only [hne, if_false]
      exact ih hnd.2 h

theorem lookup_foldl_insert (inst : Ptr) (es : List (String × (Ptr → Ptr))) (m : StdMap)
    (k : String) :
    StdMap.lookup (es.foldl (fun m entry => StdMap.insert m (entry.1, entry.2 inst)) m) k =
      match StdMap.lookup m k with
      | some v => some v
      | none => (firstAccessor es k).map (fun a => a inst) := by
  induction es generalizing m with
  | nil => cases h : StdMap.lookup m k <;> simp [firstAccessor, h]
  | cons e es ih =>
    simp only [List.foldl_cons]
    rw [ih, StdMap.lookup_insert]
    cases hk : StdMap.lookup m k with
    | some v => rfl
    | none =>
      by_cases hek : e.1 = k <;> simp [firstAccessor, hek]

theorem keys_foldl_insert_nodup (inst : Ptr) (es : List (String × (Ptr → Ptr))) (m : StdMap)
    (h : (StdMap.keys m).Nodup) :
    (StdMap.keys (es.foldl (fun m entry => StdMap.insert m (entry.1, entry.2 inst)) m)).Nodup := by
  induction es generalizing m with
  | nil => simpa using h
  | cons e es ih =>
    simp only [List.foldl_cons]
    exact ih _ (StdMap.keys_insert_nodup m _ h)

theorem Plugin.ctor_pluginInstance {σ : Type} (info : PluginInfo σ) (w : World σ) :
    (Plugin.ctor info w).1.dataPtr.pluginInstance = (info.factory w.ext).1 := rfl

theorem Plugin.ctor_lookup {σ : Type} (info : PluginInfo σ) (w : World σ) (k : String) :
    StdMap.lookup (Plugin.ctor info w).1.dataPtr.interfaces k =
      (firstAccessor info.interfaces k).map (fun a => a (info.factory w.ext).1) := by
  have h := lookup_foldl_insert (info.factory w.ext).1 info.interfaces [] k
  simpa [Plugin.ctor, callFactory, StdMap.lookup_nil] using h

theorem Plugin.ctor_keys_nodup {σ : Type} (info : PluginInfo σ) (w : World σ) :
    (StdMap.keys (Plugin.ctor info w).1.dataPtr.interfaces).Nodup := by
  have h := keys_foldl_insert_nodup (info.factory w.ext).1 info.interfaces [] (by simp [StdMap.keys])
  simpa [Plugin.ctor, callFactory] using h

theorem Plugin.GetInterface_eq_lookup {σ : Type} (NormalizeName : String → String)
    (p : Plugin σ) (n : String) :
    Plugin.GetInterface NormalizeName p n =
      (StdMap.lookup p.dataPtr.interfaces (NormalizeName n)).getD nullptr := by
  unfold Plugin.GetInterface StdMap.lookup
  cases h : StdMap.find p.dataPtr.interfaces (NormalizeName n) <;> simp [h]

theorem Plugin.GetInterface_ctor {σ : Type} (NormalizeName : String → String)
    (info : PluginInfo σ) (w : World σ) (n : String) :
    Plugin.GetInterface NormalizeName (Plugin.ctor info w).1 n =
      ((firstAccessor info.interfaces (NormalizeName n)).map
        (fun a => a (info.factory w.ext).1)).getD nullptr := by
  rw [Plugin.GetInterface_eq_lookup, Plugin.ctor_lookup]

theorem firstAccessor_mem (es : List (String × (Ptr → Ptr))) (k : String) (a : Ptr → Ptr)
    (h : firstAccessor es k = some a) : (k, a) ∈ es := by
  induction es with
  | nil => simp [firstAccessor] at h
  | cons e es ih =>
    unfold firstAccessor at h
    by_cases hek : e.1 = k
    · simp only [hek, if_true, Option.some.injEq] at h
      have : e = (k, a) := Prod.ext hek h
      rw [this]; exact List.mem_cons_self _ _
    · simp only [hek, if_false] at h
      exact List.mem_cons_of_mem _ (ih h)

/-! ## The dynamic tier: `Plugin` -/

/-- C1, refuted as stated: under a normaliser that adds a leading `::`, the name `Shape` is a key
of the sample descriptor, yet `GetInterface("Shape")` is null on the handle built from it; and
`Shape` is not a key of the descriptor with scoped names, yet `GetInterface("Shape")` is
non-null there. Under the identity normaliser, a key whose accessor returns null also has a null
`GetInterface`. -/
theorem C1_counterexample :
    ("Shape" ∈ widgetInfo.interfaces.map Prod.fst ∧
      Plugin.GetInterface scopeNormalizer (Plugin.ctor widgetInfo World.init).1 "Shape"
        = nullptr) ∧
    ("Shape" ∉ scopedWidgetInfo.interfaces.map Prod.fst ∧
      Plugin.GetInterface scopeNormalizer (Plugin.ctor scopedWidgetInfo World.init).1 "Shape"
        ≠ nullptr) ∧
    ("Shape" ∈ nullAccessorInfo.interfaces.map Prod.fst ∧
      Plugin.GetInterface id (Plugin.ctor nullAccessorInfo World.init).1 "Shape" = nullptr) := by
  decide

/-- C1, amended: for every descriptor whose accessors return non-null pointers for the instance
and every name `n`, `GetInterface(n)` is non-null on the handle built from the descriptor exactly
when the normal form `NormalizeName(n)` is one of the descriptor's interface names. -/
theorem C1_hasInterface_iff_normal_form_is_key {σ : Type} (NormalizeName : String → String)
    (D : PluginInfo σ) (w : World σ) (n : String)
    (hvalid : ∀ e ∈ D.interfaces, e.2 (D.factory w.ext).1 ≠ nullptr) :
    Plugin.GetInterface NormalizeName (Plugin.ctor D w).1 n ≠ nullptr ↔
      NormalizeName n ∈ D.interfaces.map Prod.fst := by
  rw [Plugin.GetInterface_ctor]
  cases h : firstAccessor D.interfaces (NormalizeName n) with
  | none =>
    have hk := (firstAccessor_eq_none_iff D.interfaces (NormalizeName n)).1 h
    simp only [Option.map_none', Option.getD_none, ne_eq, not_true_eq_false, false_iff]
    exact hk
  | some a =>
    have hmem := firstAccessor_mem D.interfaces (NormalizeName n) a h
    have hnn := hvalid _ hmem
    have hk : NormalizeName n ∈ D.interfaces.map Prod.fst := by
      by_contra hc
      rw [(firstAccessor_eq_none_iff D.interfaces (NormalizeName n)).2 hc] at h
      cases h
    simp only [Option.map_some', Option.getD_some]
    exact ⟨fun _ => hk, fun _ => hnn⟩

/-- Witness of C1 amended: the descriptor with scoped names under the scoping normaliser. -/
theorem C1_hasInterface_iff_normal_form_is_key_witness :
    (∀ e ∈ scopedWidgetInfo.interfaces, e.2 (scopedWidgetInfo.factory World.init.ext).1 ≠ nullptr) ∧
    (Plugin.GetInterface scopeNormalizer (Plugin.ctor scopedWidgetInfo World.init).1 "Shape"
        ≠ nullptr ↔
      scopeNormalizer "Shape" ∈ scopedWidgetInfo.interfaces.map Prod.fst) :=
  ⟨by decide,
   C1_hasInterface_iff_normal_form_is_key scopeNormalizer scopedWidgetInfo World.init "Shape"
     (by decide)⟩

/-- C2: on every handle built by the constructor and for every name `n`, `GetInterface(n)` returns
the pointer `v` of the table entry `(NormalizeName(n), v)` when the table has one, and null when
no table entry has the key `NormalizeName(n)`. -/
theorem C2_GetInterface_returns_stored_pointer {σ : Type} (NormalizeName : String → String)
    (D : PluginInfo σ) (w : World σ) (n : String) :
    (∀ v, (NormalizeName n, v) ∈ (Plugin.ctor D w).1.dataPtr.interfaces →
        Plugin.GetInterface NormalizeName (Plugin.ctor D w).1 n = v) ∧
    (NormalizeName n ∉ StdMap.keys (Plugin.ctor D w).1.dataPtr.interfaces →
        Plugin.GetInterface NormalizeName (Plugin.ctor D w).1 n = nullptr) := by
  constructor
  · intro v hv
    rw [Plugin.GetInterface_eq_lookup,
      StdMap.lookup_of_mem _ _ v (Plugin.ctor_keys_nodup D w) hv]
    rfl
  · intro hk
    rw [Plugin.GetInterface_eq_lookup, (StdMap.lookup_eq_none_iff _ _).2 hk]
    rfl

/-- Witness of C2: the sample handle stores `7` under `::Shape`, and nothing under
`::OtherIface`. -/
theorem C2_GetInterface_returns_stored_pointer_witness :
    Plugin.GetInterface scopeNormalizer (Plugin.ctor scopedWidgetInfo World.init).1 "Shape" = 7 ∧
    Plugin.GetInterface scopeNormalizer (Plugin.ctor scopedWidgetInfo World.init).1 "OtherIface"
      = nullptr :=
  ⟨(C2_GetInterface_returns_stored_pointer scopeNormalizer scopedWidgetInfo World.init
      "Shape").1 7 (by decide),
   (C2_GetInterface_returns_stored_pointer scopeNormalizer scopedWidgetInfo World.init
      "OtherIface").2 (by decide)⟩

/-- C3, refuted as stated: the sample descriptor has the entry `("Shape", id)`; under a
normaliser that adds a leading `::` the table built from it has nothing under
`NormalizeName("Shape")`, and has `id(instance) = 7` under the name `Shape` itself. -/
theorem C3_counterexample :
    firstAccessor widgetInfo.interfaces "Shape" = some id ∧
    StdMap.lookup (Plugin.ctor widgetInfo World.init).1.dataPtr.interfaces
      (scopeNormalizer "Shape") = none ∧
    StdMap.lookup (Plugin.ctor widgetInfo World.init).1.dataPtr.interfaces "Shape"
      = some (id 7) :=
  ⟨rfl, by decide, by decide⟩

/-- C3, amended: for every descriptor and every name whose first entry in iteration order has the
accessor `a`, the table built by the constructor has the entry `(name, a(instance))`, under the
name as the descriptor gives it; the normaliser is applied at lookup only, so `GetInterface(n)`
returns `a(instance)` for every `n` whose normal form is that name. -/
theorem C3_table_stores_under_descriptor_name {σ : Type} (D : PluginInfo σ) (w : World σ)
    (name : String) (a : Ptr → Ptr) (hfirst : firstAccessor D.interfaces name = some a) :
    (name, a (D.factory w.ext).1) ∈ (Plugin.ctor D w).1.dataPtr.interfaces ∧
    ∀ (NormalizeName : String → String) (n : String), NormalizeName n = name →
      Plugin.GetInterface NormalizeName (Plugin.ctor D w).1 n = a (D.factory w.ext).1 := by
  constructor
  · apply StdMap.mem_of_lookup
    rw [Plugin.ctor_lookup, hfirst]
    rfl
  · intro NormalizeName n hn
    rw [Plugin.GetInterface_ctor, hn, hfirst]
    rfl

/-- Witness of C3 amended: the entry `("Shape", id)` of the sample descriptor. -/
theorem C3_table_stores_under_descriptor_name_witness :
    firstAccessor widgetInfo.interfaces "Shape" = some id ∧
    ("Shape", 7) ∈ (Plugin.ctor widgetInfo World.init).1.dataPtr.interfaces :=
  ⟨rfl, (C3_table_stores_under_descriptor_name widgetInfo World.init "Shape" id rfl).1⟩

/-! ## The specialised tier -/

theorem PluginPtr.iteratorSecond_PrivateGetOrCreateIterator {σ : Type}
    (NormalizeName : String → String) (base : PluginPtr σ) (I : Interface) :
    PluginPtr.iteratorSecond base
        (PluginPtr.PrivateGetOrCreateIterator NormalizeName base I.InterfaceName) =
      PluginPtr.GetInterface NormalizeName base I := by
  unfold PluginPtr.iteratorSecond PluginPtr.PrivateGetOrCreateIterator PluginPtr.GetInterface
  cases hb : base.dataPtr with
  | none => rfl
  | some s =>
    simp only [Plugin.GetInterface]
    cases hf : StdMap.find s.plugin.dataPtr.interfaces (NormalizeName I.InterfaceName) <;> rfl

theorem SpecObj.type_init {σ : Type} (NormalizeName : String → String) (base : PluginPtr σ)
    (t : SpecType) : SpecObj.type (SpecObj.init NormalizeName base t) = t := by
  induction t with
  | single I => rfl
  | compose b1 b2 ih1 ih2 => simp [SpecObj.init, SpecObj.type, ih1, ih2]

theorem SpecObj.GetInterface_init {σ : Type} (NormalizeName : String → String)
    (base : PluginPtr σ) (t : SpecType) (T : Interface) (flag : Bool) :
    (SpecObj.GetInterface NormalizeName base (SpecObj.init NormalizeName base t) T flag).1 =
      PluginPtr.GetInterface NormalizeName base T := by
  induction t with
  | single I =>
    simp only [SpecObj.init, SpecObj.GetInterface, PrivateGetSpecInterface]
    by_cases h : T = I
    · simp only [h, if_true]
      exact PluginPtr.iteratorSecond_PrivateGetOrCreateIterator NormalizeName base I
    · simp only [h, if_false]
  | compose b1 b2 ih1 ih2 =>
    simp only [SpecObj.init, SpecObj.GetInterface]
    split
    · exact ih1
    · exact ih2

theorem SpecializedPluginPtr.GetInterface_eq_dynamic {σ : Type} (NormalizeName : String → String)
    (t : SpecType) (D : PluginInfo σ) (w : World σ) (T : Interface) :
    SpecializedPluginPtr.GetInterface NormalizeName
        (SpecializedPluginPtr.ctor NormalizeName t (some D) w).1 T =
      Plugin.GetInterface NormalizeName (Plugin.ctor D w).1 T.InterfaceName := by
  unfold SpecializedPluginPtr.GetInterface SpecializedPluginPtr.ctor
  simp only [SpecObj.GetInterface_init]
  rfl

/-- C4, refuted as stated: the sample component implements `Shape` through the identity accessor
under the name `Shape`, yet under a normaliser that adds a leading `::` the handle
`SpecializedPluginPtr<Shape>` returns null from `GetInterface<Shape>()`, which is not
`id(instance) = 7`. -/
theorem C4_counterexample :
    firstAccessor widgetInfo.interfaces Shape.InterfaceName = some id ∧
    SpecializedPluginPtr.GetInterface scopeNormalizer
        (SpecializedPluginPtr.ctor scopeNormalizer (SpecType.single Shape) (some widgetInfo)
          World.init).1 Shape = nullptr ∧
    id (widgetInfo.factory World.init.ext).1 ≠ nullptr :=
  ⟨rfl, by decide, by decide⟩

/-- C4, amended: for every descriptor that registers the accessor `a` under the normal form
`NormalizeName(A::InterfaceName)`, `GetInterface<A>()` on `SpecializedPluginPtr<A>` built from it
takes the cached-iterator path, returns `a(instance)`, and returns what the dynamic
`Plugin::GetInterface(A::InterfaceName)` returns on a handle built from the same descriptor. -/
theorem C4_specialized_agrees_with_dynamic {σ : Type} (NormalizeName : String → String)
    (D : PluginInfo σ) (w : World σ) (A : Interface) (a : Ptr → Ptr)
    (himpl : firstAccessor D.interfaces (NormalizeName A.InterfaceName) = some a) :
    (SpecObj.GetInterface NormalizeName
        (SpecializedPluginPtr.ctor NormalizeName (SpecType.single A) (some D) w).1.base
        (SpecializedPluginPtr.ctor NormalizeName (SpecType.single A) (some D) w).1.sub
        A false).2 = true ∧
    SpecializedPluginPtr.GetInterface NormalizeName
        (SpecializedPluginPtr.ctor NormalizeName (SpecType.single A) (some D) w).1 A
      = a (D.factory w.ext).1 ∧
    SpecializedPluginPtr.GetInterface NormalizeName
        (SpecializedPluginPtr.ctor NormalizeName (SpecType.single A) (some D) w).1 A
      = Plugin.GetInterface NormalizeName (Plugin.ctor D w).1 A.InterfaceName := by
  refine ⟨?_, ?_, SpecializedPluginPtr.GetInterface_eq_dynamic NormalizeName _ D w A⟩
  · simp [SpecializedPluginPtr.ctor, SpecObj.init, SpecObj.GetInterface, PrivateGetSpecInterface]
  · rw [SpecializedPluginPtr.GetInterface_eq_dynamic, Plugin.GetInterface_ctor, himpl]
    rfl

/-- Witness of C4 amended: `Shape` on the descriptor with scoped names. -/
theorem C4_specialized_agrees_with_dynamic_witness :
    firstAccessor scopedWidgetInfo.interfaces (scopeNormalizer Shape.InterfaceName) = some id ∧
    SpecializedPluginPtr.GetInterface scopeNormalizer
        (SpecializedPluginPtr.ctor scopeNormalizer (SpecType.single Shape)
          (some scopedWidgetInfo) World.init).1 Shape = 7 :=
  ⟨by
    have h : scopeNormalizer Shape.InterfaceName = "::Shape" := by decide
    rw [h]; rfl,
   (C4_specialized_agrees_with_dynamic scopeNormalizer scopedWidgetInfo World.init Shape id
     (by
      have h : scopeNormalizer Shape.InterfaceName = "::Shape" := by decide
      rw [h]; rfl)).2.1⟩

/-- C5, refuted as stated: with identity accessors registered for `Shape` and `Drawable` and a
normaliser that adds a leading `::`, the composed handle over `Shape, Drawable` returns null
from `GetInterface<Shape>()` although the component implements `Shape` and the instance is
non-null. -/
theorem C5_counterexample :
    firstAccessor widgetInfo.interfaces Shape.InterfaceName = some id ∧
    SpecializedPluginPtr.GetInterface scopeNormalizer
        (SpecializedPluginPtr.ctor scopeNormalizer (SpecType.ofList Shape [Drawable])
          (some widgetInfo) World.init).1 Shape = nullptr ∧
    id (widgetInfo.factory World.init.ext).1 ≠ nullptr :=
  ⟨rfl, by decide, by decide⟩

/-- C5, amended: for every descriptor, every non-empty list of interface types and every
interface type `T`, `GetInterface<T>()` on the composed handle returns what the dynamic
`Plugin::GetInterface(T::InterfaceName)` returns on a handle built from the same descriptor,
which is `a(instance)` when the descriptor registers `a` under `NormalizeName(T::InterfaceName)`
and null when it registers nothing under that normal form. -/
theorem C5_composed_agrees_with_dynamic {σ : Type} (NormalizeName : String → String)
    (D : PluginInfo σ) (w : World σ) (I1 : Interface) (rest : List Interface) (T : Interface) :
    SpecializedPluginPtr.GetInterface NormalizeName
        (SpecializedPluginPtr.ctor NormalizeName (SpecType.ofList I1 rest) (some D) w).1 T
      = Plugin.GetInterface NormalizeName (Plugin.ctor D w).1 T.InterfaceName ∧
    SpecializedPluginPtr.GetInterface NormalizeName
        (SpecializedPluginPtr.ctor NormalizeName (SpecType.ofList I1 rest) (some D) w).1 T
      = match firstAccessor D.interfaces (NormalizeName T.InterfaceName) with
        | some a => a (D.factory w.ext).1
        | none => nullptr := by
  refine ⟨SpecializedPluginPtr.GetInterface_eq_dynamic NormalizeName _ D w T, ?_⟩
  rw [SpecializedPluginPtr.GetInterface_eq_dynamic, Plugin.GetInterface_ctor]
  cases firstAccessor D.interfaces (NormalizeName T.InterfaceName) <;> rfl

/-- C5 amended on the sample scenario: with identity accessors registered under the scoped names,
the composed handle over `Shape, Drawable` returns the instance pointer `7` for both and null
for an interface the component does not implement. -/
theorem C5_composed_agrees_with_dynamic_witness :
    SpecializedPluginPtr.GetInterface scopeNormalizer
        (SpecializedPluginPtr.ctor scopeNormalizer (SpecType.ofList Shape [Drawable])
          (some scopedWidgetInfo) World.init).1 Shape = 7 ∧
    SpecializedPluginPtr.GetInterface scopeNormalizer
        (SpecializedPluginPtr.ctor scopeNormalizer (SpecType.ofList Shape [Drawable])
          (some scopedWidgetInfo) World.init).1 Drawable = 7 ∧
    SpecializedPluginPtr.GetInterface scopeNormalizer
        (SpecializedPluginPtr.ctor scopeNormalizer (SpecType.ofList Shape [Drawable])
          (some scopedWidgetInfo) World.init).1 OtherIface = nullptr :=
  ⟨(C5_composed_agrees_with_dynamic scopeNormalizer scopedWidgetInfo World.init Shape
      [Drawable] Shape).1.trans (by decide),
   (C5_composed_agrees_with_dynamic scopeNormalizer scopedWidgetInfo World.init Shape
      [Drawable] Drawable).1.trans (by decide),
   (C5_composed_agrees_with_dynamic scopeNormalizer scopedWidgetInfo World.init Shape
      [Drawable] OtherIface).1.trans (by decide)⟩

theorem SpecType.IsSpecializedFor_ofList (I1 : Interface) (rest : List Interface)
    (T : Interface) :
    SpecType.IsSpecializedFor (SpecType.ofList I1 rest) T = decide (T ∈ I1 :: rest) := by
  induction rest generalizing I1 with
  | nil => simp [SpecType.ofList, SpecType.IsSpecializedFor, PrivateIsSpecializedFor]
  | cons I2 rest ih =>
    simp only [SpecType.ofList, SpecType.IsSpecializedFor, ih I2]
    simp [PrivateIsSpecializedFor]

theorem SpecObj.GetInterface_init_flag {σ : Type} (NormalizeName : String → String)
    (base : PluginPtr σ) (t : SpecType) (T : Interface) (flag : Bool) :
    (SpecObj.GetInterface NormalizeName base (SpecObj.init NormalizeName base t) T flag).2 =
      (flag || SpecType.IsSpecializedFor t T) := by
  induction t with
  | single I =>
    simp only [SpecObj.init, SpecObj.GetInterface, PrivateGetSpecInterface,
      SpecType.IsSpecializedFor, PrivateIsSpecializedFor]
    by_cases h : T = I <;> simp [h]
  | compose b1 b2 ih1 ih2 =>
    simp only [SpecObj.init, SpecObj.GetInterface, SpecType.IsSpecializedFor, SpecObj.type_init]
    by_cases h : SpecType.IsSpecializedFor b1 T = true
    · simp only [h, if_true, ih1, Bool.true_or]
    · simp only [Bool.not_eq_true] at h
      simp [h, ih2]

/-- C6: for every descriptor, every non-empty list of interface types and every permutation of
it, the composed handles built from the descriptor over the two lists return the same pointer
from `GetInterface<X>()`, for every interface type `X`, in the list or not; they also agree on
`IsSpecializedFor<X>()` and on whether the call took the cached path. -/
theorem C6_composition_commutative {σ : Type} (NormalizeName : String → String)
    (D : PluginInfo σ) (w : World σ) (I1 : Interface) (rest : List Interface)
    (J1 : Interface) (rest2 : List Interface)
    (hperm : List.Perm (I1 :: rest) (J1 :: rest2)) (X : Interface) :
    SpecializedPluginPtr.GetInterface NormalizeName
        (SpecializedPluginPtr.ctor NormalizeName (SpecType.ofList I1 rest) (some D) w).1 X
      = SpecializedPluginPtr.GetInterface NormalizeName
        (SpecializedPluginPtr.ctor NormalizeName (SpecType.ofList J1 rest2) (some D) w).1 X ∧
    SpecType.IsSpecializedFor (SpecType.ofList I1 rest) X
      = SpecType.IsSpecializedFor (SpecType.ofList J1 rest2) X ∧
    (SpecObj.GetInterface NormalizeName
        (SpecializedPluginPtr.ctor NormalizeName (SpecType.ofList I1 rest) (some D) w).1.base
        (SpecializedPluginPtr.ctor NormalizeName (SpecType.ofList I1 rest) (some D) w).1.sub
        X false).2
      = (SpecObj.GetInterface NormalizeName
        (SpecializedPluginPtr.ctor NormalizeName (SpecType.ofList J1 rest2) (some D) w).1.base
        (SpecializedPluginPtr.ctor NormalizeName (SpecType.ofList J1 rest2) (some D) w).1.sub
        X false).2 := by
  have hspec : SpecType.IsSpecializedFor (SpecType.ofList I1 rest) X
      = SpecType.IsSpecializedFor (SpecType.ofList J1 rest2) X := by
    rw [SpecType.IsSpecializedFor_ofList, SpecType.IsSpecializedFor_ofList]
    exact decide_eq_decide.2 hperm.mem_iff
  refine ⟨?_, hspec, ?_⟩
  · rw [SpecializedPluginPtr.GetInterface_eq_dynamic, SpecializedPluginPtr.GetInterface_eq_dynamic]
  · simp only [SpecializedPluginPtr.ctor, SpecObj.GetInterface_init_flag, hspec]

/-- Witness of C6: the composed handles over `Shape, Drawable` and over `Drawable, Shape`. -/
theorem C6_composition_commutative_witness :
    List.Perm [Shape, Drawable] [Drawable, Shape] ∧
    SpecializedPluginPtr.GetInterface scopeNormalizer
        (SpecializedPluginPtr.ctor scopeNormalizer (SpecType.ofList Shape [Drawable])
          (some scopedWidgetInfo) World.init).1 Drawable
      = SpecializedPluginPtr.GetInterface scopeNormalizer
        (SpecializedPluginPtr.ctor scopeNormalizer (SpecType.ofList Drawable [Shape])
          (some scopedWidgetInfo) World.init).1 Drawable :=
  ⟨List.Perm.swap _ _ _,
   (C6_composition_commutative scopeNormalizer scopedWidgetInfo World.init Shape [Drawable]
     Drawable [Shape] (List.Perm.swap _ _ _) Drawable).1⟩

/-! ## The static predicate `IsSpecializedFor` -/

/-- C7: for all interface types `I` and `T`, `SpecializedPluginPtr<I>::IsSpecializedFor<T>()` is
true if and only if `T` is `I`; the predicate takes no instance and no descriptor. -/
theorem C7_IsSpecializedFor_iff_same_type (I T : Interface) :
    SpecType.IsSpecializedFor (SpecType.single I) T = true ↔ T = I := by
  simp [SpecType.IsSpecializedFor, PrivateIsSpecializedFor]

/-- C8: for every non-empty list of interface types and every type `T`, `IsSpecializedFor<T>()`
of the composed class is true if and only if `T` is in the list, and it equals the disjunction
of the single-interface predicates over the list. -/
theorem C8_composed_IsSpecializedFor_iff_mem (I1 : Interface) (rest : List Interface)
    (T : Interface) :
    (SpecType.IsSpecializedFor (SpecType.ofList I1 rest) T = true ↔ T ∈ I1 :: rest) ∧
    SpecType.IsSpecializedFor (SpecType.ofList I1 rest) T =
      (I1 :: rest).any (fun I => SpecType.IsSpecializedFor (SpecType.single I) T) := by
  induction rest generalizing I1 with
  | nil => simp [SpecType.ofList, SpecType.IsSpecializedFor, PrivateIsSpecializedFor]
  | cons I2 rest ih =>
    have h := ih I2
    constructor
    · simp only [SpecType.ofList, SpecType.IsSpecializedFor, Bool.or_eq_true, h.1]
      simp [PrivateIsSpecializedFor]
    · simp only [SpecType.ofList, SpecType.IsSpecializedFor, h.2]
      simp [SpecType.IsSpecializedFor]

/-! ## Ownership -/

theorem PluginPtr.copyN_some {σ : Type} (k : Nat) (P : Plugin σ) (c : Nat) :
    PluginPtr.copyN k { dataPtr := some { plugin := P, useCount := c } } =
      { dataPtr := some { plugin := P, useCount := c + k } } := by
  induction k generalizing c with
  | zero => rfl
  | succ k ih =>
    simp only [PluginPtr.copyN, PluginPtr.copy]
    rw [ih]
    congr 3
    omega

theorem PluginPtr.releaseN_lt {σ : Type} (j : Nat) (P : Plugin σ) (c : Nat) (w : World σ)
    (h : j < c) :
    PluginPtr.releaseN j { dataPtr := some { plugin := P, useCount := c } } w =
      ({ dataPtr := some { plugin := P, useCount := c - j } }, w) := by
  induction j generalizing c with
  | zero => rfl
  | succ j ih =>
    have h1 : ¬ c ≤ 1 := by omega
    simp only [PluginPtr.releaseN, PluginPtr.release, h1, if_false]
    rw [ih (c - 1) (by omega)]
    congr 4
    omega

theorem PluginPtr.releaseN_all {σ : Type} (P : Plugin σ) (c : Nat) (w : World σ) :
    PluginPtr.releaseN (c + 1) { dataPtr := some { plugin := P, useCount := c + 1 } } w =
      ({ dataPtr := none }, Plugin.dtor P w) := by
  induction c with
  | zero => simp [PluginPtr.releaseN, PluginPtr.release]
  | succ c ih =>
    have h1 : ¬ c + 1 + 1 ≤ 1 := by omega
    simp only [PluginPtr.releaseN, PluginPtr.release, h1, if_false] at ih ⊢
    simpa using ih

/-- C9: for every descriptor, constructing a `Plugin` from it adds exactly one call to the
trace, the call of the factory; the handle holds the pointer the factory returned; destroying
the handle adds exactly one call, the call of the deleter on that pointer, and this is so for
the same descriptor with no interface accessors, whose table is empty. -/
theorem C9_factory_once_deleter_once {σ : Type} (D : PluginInfo σ) (w w2 : World σ) :
    (Plugin.ctor D w).2.calls = w.calls ++ [Call.factory (D.factory w.ext).1] ∧
    (Plugin.ctor D w).2.ext = (D.factory w.ext).2 ∧
    (Plugin.ctor D w).1.dataPtr.pluginInstance = (D.factory w.ext).1 ∧
    (Plugin.dtor (Plugin.ctor D w).1 w2).calls
      = w2.calls ++ [Call.deleter (D.factory w.ext).1] ∧
    (Plugin.dtor (Plugin.ctor D w).1 w2).ext = D.deleter (D.factory w.ext).1 w2.ext ∧
    (Plugin.ctor { D with interfaces := [] } w).1.dataPtr.interfaces = [] ∧
    (Plugin.ctor { D with interfaces := [] } w).2.calls
      = w.calls ++ [Call.factory (D.factory w.ext).1] ∧
    (Plugin.dtor (Plugin.ctor { D with interfaces := [] } w).1 w2).calls
      = w2.calls ++ [Call.deleter (D.factory w.ext).1] :=
  ⟨rfl, rfl, rfl, rfl, rfl, rfl, rfl, rfl⟩

/-- C10: for every descriptor and interface types `A`, `B`, constructing the composed handle
`SpecializedPluginPtr<A, B>` adds exactly one call to the trace, the call of the factory, and
leaves one owner of one `Plugin`; with `k` further owners, releasing up to `k` of the `k + 1`
owners calls nothing, and releasing all `k + 1` adds exactly one call, the call of the deleter
on the pointer the factory returned. -/
theorem C10_composed_single_ownership {σ : Type} (NormalizeName : String → String)
    (D : PluginInfo σ) (w : World σ) (A B : Interface) (k : Nat) :
    (SpecializedPluginPtr.ctor NormalizeName (SpecType.ofList A [B]) (some D) w).2.calls
      = w.calls ++ [Call.factory (D.factory w.ext).1] ∧
    (SpecializedPluginPtr.ctor NormalizeName (SpecType.ofList A [B]) (some D) w).1.base
      = { dataPtr := some { plugin := (Plugin.ctor D w).1, useCount := 1 } } ∧
    (∀ j, j ≤ k →
      (PluginPtr.releaseN j
        (PluginPtr.copyN k
          (SpecializedPluginPtr.ctor NormalizeName (SpecType.ofList A [B]) (some D) w).1.base)
        (SpecializedPluginPtr.ctor NormalizeName (SpecType.ofList A [B]) (some D) w).2).2.calls
      = w.calls ++ [Call.factory (D.factory w.ext).1]) ∧
    (PluginPtr.releaseN (k + 1)
        (PluginPtr.copyN k
          (SpecializedPluginPtr.ctor NormalizeName (SpecType.ofList A [B]) (some D) w).1.base)
        (SpecializedPluginPtr.ctor NormalizeName (SpecType.ofList A [B]) (some D) w).2).2.calls
      = w.calls ++ [Call.factory (D.factory w.ext).1, Call.deleter (D.factory w.ext).1] := by
  have hbase : (SpecializedPluginPtr.ctor NormalizeName (SpecType.ofList A [B]) (some D) w).1.base
      = { dataPtr := some { plugin := (Plugin.ctor D w).1, useCount := 1 } } := rfl
  have hcalls : (SpecializedPluginPtr.ctor NormalizeName (SpecType.ofList A [B])
      (some D) w).2.calls = w.calls ++ [Call.factory (D.factory w.ext).1] := rfl
  refine ⟨hcalls, hbase, ?_, ?_⟩
  · intro j hj
    rw [hbase, PluginPtr.copyN_some, PluginPtr.releaseN_lt j _ _ _ (by omega)]
    exact hcalls
  · rw [hbase, PluginPtr.copyN_some, Nat.add_comm 1 k, PluginPtr.releaseN_all]
    simp only [Plugin.dtor, PluginPrivate.dtor, callDeleter, hcalls, List.append_assoc]
    rfl

/-- Witness of C10: the sample descriptor, two further owners; the construction counter and the
destruction counter of the component both read one after all three owners are released. -/
theorem C10_composed_single_ownership_witness :
    (PluginPtr.releaseN 2
        (PluginPtr.copyN 2
          (SpecializedPluginPtr.ctor id (SpecType.ofList Shape [Drawable]) (some widgetInfo)
            World.init).1.base)
        (SpecializedPluginPtr.ctor id (SpecType.ofList Shape [Drawable]) (some widgetInfo)
          World.init).2).2.calls = [Call.factory 7] ∧
    (PluginPtr.releaseN 3
        (PluginPtr.copyN 2
          (SpecializedPluginPtr.ctor id (SpecType.ofList Shape [Drawable]) (some widgetInfo)
            World.init).1.base)
        (SpecializedPluginPtr.ctor id (SpecType.ofList Shape [Drawable]) (some widgetInfo)
          World.init).2).2.calls = [Call.factory 7, Call.deleter 7] ∧
    (PluginPtr.releaseN 3
        (PluginPtr.copyN 2
          (SpecializedPluginPtr.ctor id (SpecType.ofList Shape [Drawable]) (some widgetInfo)
            World.init).1.base)
        (SpecializedPluginPtr.ctor id (SpecType.ofList Shape [Drawable]) (some widgetInfo)
          World.init).2).2.ext = (1, 1) :=
  ⟨(C10_composed_single_ownership id widgetInfo World.init Shape Drawable 2).2.2.1 2
      (by decide),
   (C10_composed_single_ownership id widgetInfo World.init Shape Drawable 2).2.2.2,
   by decide⟩

/-! ## The table after construction -/

/-- C11: for every descriptor, the table built by the `Plugin` constructor has exactly the
descriptor's interface names as keys: a name is a key of the table if and only if it is the
name of an entry of the descriptor, and no key occurs twice. -/
theorem C11_table_keys_are_descriptor_names {σ : Type} (D : PluginInfo σ) (w : World σ) :
    (∀ k : String, k ∈ StdMap.keys (Plugin.ctor D w).1.dataPtr.interfaces ↔
      k ∈ D.interfaces.map Prod.fst) ∧
    (StdMap.keys (Plugin.ctor D w).1.dataPtr.interfaces).Nodup := by
  refine ⟨fun k => ?_, Plugin.ctor_keys_nodup D w⟩
  have h1 := StdMap.lookup_eq_none_iff (Plugin.ctor D w).1.dataPtr.interfaces k
  have h2 := firstAccessor_eq_none_iff D.interfaces k
  rw [Plugin.ctor_lookup, Option.map_eq_none'] at h1
  constructor
  · intro hk
    by_contra hc
    exact (h1.1 (h2.2 hc)) hk
  · intro hk
    by_contra hc
    exact (h2.1 (h1.2 hc)) hk

/-! ## The cached slot -/

theorem PluginPtr.PrivateGetOrCreateIterator_absent {σ : Type} (NormalizeName : String → String)
    (D : PluginInfo σ) (w : World σ) (name : String)
    (habsent : NormalizeName name ∉ D.interfaces.map Prod.fst) :
    PluginPtr.PrivateGetOrCreateIterator NormalizeName (PluginPtr.ctor (some D) w).1 name
      = none := by
  show StdMap.find (Plugin.ctor D w).1.dataPtr.interfaces (NormalizeName name) = none
  rw [StdMap.find_eq_none_iff, Plugin.ctor_lookup,
    (firstAccessor_eq_none_iff D.interfaces (NormalizeName name)).2 habsent]
  rfl

theorem SpecObj.GetInterface_fst_flag {σ : Type} (NormalizeName : String → String)
    (base : PluginPtr σ) (obj : SpecObj) (T : Interface) (f1 f2 : Bool) :
    (SpecObj.GetInterface NormalizeName base obj T f1).1 =
      (SpecObj.GetInterface NormalizeName base obj T f2).1 := by
  induction obj with
  | single I it =>
    simp only [SpecObj.GetInterface, PrivateGetSpecInterface]
    by_cases h : T = I <;> simp [h]
  | compose b1 b2 ih1 ih2 =>
    simp only [SpecObj.GetInterface]
    split
    · exact ih1
    · exact ih2

theorem SpecObj.GetInterfaceRepeat_eq_replicate {σ : Type} (NormalizeName : String → String)
    (base : PluginPtr σ) (obj : SpecObj) (T : Interface) (n : Nat) (flag : Bool) :
    (SpecObj.GetInterfaceRepeat NormalizeName base obj T n flag).1 =
      List.replicate n (SpecObj.GetInterface NormalizeName base obj T flag).1 := by
  induction n generalizing flag with
  | zero => rfl
  | succ n ih =>
    simp only [SpecObj.GetInterfaceRepeat, List.replicate_succ]
    rw [ih, SpecObj.GetInterface_fst_flag NormalizeName base obj T
      (SpecObj.GetInterface NormalizeName base obj T flag).2 flag]

/-- C13: for every descriptor whose component does not implement `I`, that is, with no entry
under the name `NormalizeName(I::InterfaceName)` that a lookup of `I` asks for, the handle
`SpecializedPluginPtr<I>` built from it caches the null sentinel, returns null from
`GetInterface<I>()` and false from `HasInterface<I>()`. -/
theorem C13_absent_interface_reads_null {σ : Type} (NormalizeName : String → String)
    (D : PluginInfo σ) (w : World σ) (I : Interface)
    (habsent : NormalizeName I.InterfaceName ∉ D.interfaces.map Prod.fst) :
    (SpecializedPluginPtr.ctor NormalizeName (SpecType.single I) (some D) w).1.sub
      = SpecObj.single I none ∧
    SpecializedPluginPtr.GetInterface NormalizeName
        (SpecializedPluginPtr.ctor NormalizeName (SpecType.single I) (some D) w).1 I
      = nullptr ∧
    SpecializedPluginPtr.HasInterface NormalizeName
        (SpecializedPluginPtr.ctor NormalizeName (SpecType.single I) (some D) w).1 I
      = false := by
  have hsub : (SpecializedPluginPtr.ctor NormalizeName (SpecType.single I) (some D) w).1.sub
      = SpecObj.single I none := by
    show SpecObj.single I
        (PluginPtr.PrivateGetOrCreateIterator NormalizeName (PluginPtr.ctor (some D) w).1
          I.InterfaceName) = SpecObj.single I none
    rw [PluginPtr.PrivateGetOrCreateIterator_absent NormalizeName D w I.InterfaceName habsent]
  refine ⟨hsub, ?_, ?_⟩
  · unfold SpecializedPluginPtr.GetInterface
    rw [hsub]
    simp [SpecObj.GetInterface, PrivateGetSpecInterface, PluginPtr.iteratorSecond]
  · unfold SpecializedPluginPtr.HasInterface
    rw [hsub]
    simp [SpecObj.HasInterface, PrivateHasSpecInterface, PluginPtr.iteratorSecond]

/-- Witness of C13: `OtherIface` on the descriptor with scoped names. -/
theorem C13_absent_interface_reads_null_witness :
    scopeNormalizer OtherIface.InterfaceName ∉ scopedWidgetInfo.interfaces.map Prod.fst ∧
    SpecializedPluginPtr.GetInterface scopeNormalizer
        (SpecializedPluginPtr.ctor scopeNormalizer (SpecType.single OtherIface)
          (some scopedWidgetInfo) World.init).1 OtherIface = nullptr :=
  ⟨by decide,
   (C13_absent_interface_reads_null scopeNormalizer scopedWidgetInfo World.init OtherIface
     (by decide)).2.1⟩

/-- C14: for every specialised handle `SpecializedPluginPtr<A>`, whatever its shared base and
its cached iterator, and every number `n` of successive calls of `GetInterface<A>()` on it,
every call returns the pointer the first call returns. -/
theorem C14_repeated_GetInterface_same_pointer {σ : Type} (NormalizeName : String → String)
    (base : PluginPtr σ) (A : Interface) (it : Option Nat) (n : Nat) (flag : Bool) :
    (SpecObj.GetInterfaceRepeat NormalizeName base (SpecObj.single A it) A n flag).1 =
      List.replicate n (SpecObj.GetInterface NormalizeName base (SpecObj.single A it) A flag).1 :=
  SpecObj.GetInterfaceRepeat_eq_replicate NormalizeName base (SpecObj.single A it) A n flag

/-- C15: on every `SpecializedPluginPtr<I>` and for every type `T`: when `T` is `I`,
`GetInterface<T>()` and `HasInterface<T>()` read the cached iterator and set the test flag, and
the result does not depend on the name normaliser; when `T` is not `I`, they return what
`PluginPtr::GetInterface<T>()` and `PluginPtr::HasInterface<T>()` return and leave the flag as
it was; so a call starting with the flag down raises it if and only if `T` is `I`. -/
theorem C15_path_selection {σ : Type} (NormalizeName : String → String) (base : PluginPtr σ)
    (I : Interface) (it : Option Nat) (T : Interface) (flag : Bool) :
    (T = I →
      PrivateGetSpecInterface NormalizeName base I it T flag
        = (PluginPtr.iteratorSecond base it, true) ∧
      PrivateHasSpecInterface NormalizeName base I it T flag
        = (decide (nullptr ≠ PluginPtr.iteratorSecond base it), true) ∧
      ∀ otherNormalizer : String → String,
        PrivateGetSpecInterface otherNormalizer base I it T flag
          = PrivateGetSpecInterface NormalizeName base I it T flag) ∧
    (T ≠ I →
      PrivateGetSpecInterface NormalizeName base I it T flag
        = (PluginPtr.GetInterface NormalizeName base T, flag) ∧
      PrivateHasSpecInterface NormalizeName base I it T flag
        = (PluginPtr.HasInterface NormalizeName base T, flag)) ∧
    ((PrivateGetSpecInterface NormalizeName base I it T false).2 = true ↔ T = I) ∧
    ((PrivateHasSpecInterface NormalizeName base I it T false).2 = true ↔ T = I) := by
  refine ⟨fun h => ?_, fun h => ?_, ?_, ?_⟩
  · simp [PrivateGetSpecInterface, PrivateHasSpecInterface, h]
  · simp [PrivateGetSpecInterface, PrivateHasSpecInterface, h]
  · by_cases h : T = I <;> simp [PrivateGetSpecInterface, h]
  · by_cases h : T = I <;> simp [PrivateHasSpecInterface, h]

/-- Witness of C15: on `SpecializedPluginPtr<Shape>` over the sample handle, `GetInterface<Shape>()`
raises the flag and `GetInterface<Drawable>()` leaves it down. -/
theorem C15_path_selection_witness :
    PrivateGetSpecInterface scopeNormalizer (PluginPtr.ctor (some scopedWidgetInfo) World.init).1
        Shape (some 1) Shape false = (7, true) ∧
    PrivateGetSpecInterface scopeNormalizer (PluginPtr.ctor (some scopedWidgetInfo) World.init).1
        Shape (some 1) Drawable false = (7, false) :=
  ⟨((C15_path_selection scopeNormalizer (PluginPtr.ctor (some scopedWidgetInfo) World.init).1
      Shape (some 1) Shape false).1 rfl).1.trans (by decide),
   ((C15_path_selection scopeNormalizer (PluginPtr.ctor (some scopedWidgetInfo) World.init).1
      Shape (some 1) Drawable false).2.1 (by decide)).1.trans (by decide)⟩

/-! ## Names with one normal form -/

/-- C16, refuted as stated: the two sample entries `Shape` and `::Shape` register the same name
after normalisation. With the entry under `Shape` later in iteration order, the table holds
under the normal form `::Shape` the pointer `9` of the earlier entry, and `GetInterface`
returns `9`, not the pointer `8` of the later entry; with the entry under `Shape` earlier it
returns `9` as well, so the order of the entries decides nothing. -/
theorem C16_counterexample :
    (scopedThenPlainInfo.interfaces.map Prod.fst = ["::Shape", "Shape"] ∧
      scopedThenPlainInfo.interfaces.map (fun e => scopeNormalizer e.1)
        = ["::Shape", "::Shape"] ∧
      scopedThenPlainInfo.interfaces.map
        (fun e => e.2 (scopedThenPlainInfo.factory World.init.ext).1) = [9, 8] ∧
      StdMap.lookup (Plugin.ctor scopedThenPlainInfo World.init).1.dataPtr.interfaces
        "::Shape" = some 9 ∧
      Plugin.GetInterface scopeNormalizer (Plugin.ctor scopedThenPlainInfo World.init).1
        "Shape" = 9) ∧
    (plainThenScopedInfo.interfaces.map Prod.fst = ["Shape", "::Shape"] ∧
      Plugin.GetInterface scopeNormalizer (Plugin.ctor plainThenScopedInfo World.init).1
        "Shape" = 9) := by
  decide

/-- C16, amended: when a descriptor with pairwise distinct names has two entries whose names
have the same normal form, and the name of the second is that normal form, the table built by
the constructor keeps both entries, each under its own name, and `GetInterface` of every name
with that normal form returns the pointer of the entry whose name is the normal form, wherever
the two entries stand in iteration order. -/
theorem C16_normal_form_entry_wins {σ : Type} (NormalizeName : String → String)
    (D : PluginInfo σ) (w : World σ) (k1 k2 : String) (a1 a2 : Ptr → Ptr)
    (hunique : D.uniqueNames)
    (h1 : (k1, a1) ∈ D.interfaces) (h2 : (k2, a2) ∈ D.interfaces)
    (hsame : NormalizeName k1 = NormalizeName k2) (hnormal : NormalizeName k2 = k2) :
    (k1, a1 (D.factory w.ext).1) ∈ (Plugin.ctor D w).1.dataPtr.interfaces ∧
    (k2, a2 (D.factory w.ext).1) ∈ (Plugin.ctor D w).1.dataPtr.interfaces ∧
    ∀ n : String, NormalizeName n = NormalizeName k1 →
      Plugin.GetInterface NormalizeName (Plugin.ctor D w).1 n = a2 (D.factory w.ext).1 := by
  have hf1 := firstAccessor_of_mem D.interfaces k1 a1 hunique h1
  have hf2 := firstAccessor_of_mem D.interfaces k2 a2 hunique h2
  refine ⟨?_, ?_, ?_⟩
  · apply StdMap.mem_of_lookup
    rw [Plugin.ctor_lookup, hf1]
    rfl
  · apply StdMap.mem_of_lookup
    rw [Plugin.ctor_lookup, hf2]
    rfl
  · intro n hn
    rw [Plugin.GetInterface_ctor, hn, hsame, hnormal, hf2]
    rfl

/-- Witness of C16 amended: the sample descriptor in which the entry under `Shape` comes later
than the entry under `::Shape`. -/
theorem C16_normal_form_entry_wins_witness :
    scopedThenPlainInfo.uniqueNames ∧
    scopeNormalizer "Shape" = scopeNormalizer "::Shape" ∧
    scopeNormalizer "::Shape" = "::Shape" ∧
    Plugin.GetInterface scopeNormalizer (Plugin.ctor scopedThenPlainInfo World.init).1 "Shape"
      = (fun p => p + 2) (scopedThenPlainInfo.factory World.init.ext).1 :=
  ⟨by unfold PluginInfo.uniqueNames; decide, by decide, by decide,
   (C16_normal_form_entry_wins scopeNormalizer scopedThenPlainInfo World.init "Shape" "::Shape"
      (fun p => p + 1) (fun p => p + 2) (by unfold PluginInfo.uniqueNames; decide)
      (List.mem_cons_of_mem _ (List.mem_cons_self _ _)) (List.mem_cons_self _ _)
      (by decide) (by decide)).2.2 "Shape" rfl⟩

/-- C17: on every `SpecializedPluginPtr<I>`, whatever its shared base and its cached iterator,
`HasInterface<I>()` is true if and only if `GetInterface<I>()` returns a non-null pointer, for
the non-const and for the const overload of `GetInterface`. -/
theorem C17_HasInterface_iff_GetInterface_nonnull {σ : Type} (NormalizeName : String → String)
    (base : PluginPtr σ) (I : Interface) (it : Option Nat) (flag : Bool) :
    ((PrivateHasSpecInterface NormalizeName base I it I flag).1 = true ↔
      (PrivateGetSpecInterface NormalizeName base I it I flag).1 ≠ nullptr) ∧
    ((PrivateHasSpecInterface NormalizeName base I it I flag).1 = true ↔
      (PrivateGetSpecInterface_const NormalizeName base I it I flag).1 ≠ nullptr) := by
  simp only [PrivateHasSpecInterface, PrivateGetSpecInterface, PrivateGetSpecInterface_const,
    if_true, decide_eq_true_eq]
  exact ⟨⟨fun h => Ne.symm h, fun h => Ne.symm h⟩, ⟨fun h => Ne.symm h, fun h => Ne.symm h⟩⟩

/-- C18: on every handle and for every two names with the same normal form, `GetInterface`
returns the same pointer. -/
theorem C18_GetInterface_depends_on_normal_form {σ : Type} (NormalizeName : String → String)
    (p : Plugin σ) (n1 n2 : String) (h : NormalizeName n1 = NormalizeName n2) :
    Plugin.GetInterface NormalizeName p n1 = Plugin.GetInterface NormalizeName p n2 := by
  unfold Plugin.GetInterface
  simp only [h]

/-- Witness of C18: `Shape` and `::Shape` have the same normal form under the scoping
normaliser. -/
theorem C18_GetInterface_depends_on_normal_form_witness :
    scopeNormalizer "Shape" = scopeNormalizer "::Shape" ∧
    Plugin.GetInterface scopeNormalizer (Plugin.ctor scopedWidgetInfo World.init).1 "Shape"
      = Plugin.GetInterface scopeNormalizer (Plugin.ctor scopedWidgetInfo World.init).1
          "::Shape" :=
  ⟨by decide,
   C18_GetInterface_depends_on_normal_form scopeNormalizer
     (Plugin.ctor scopedWidgetInfo World.init).1 "Shape" "::Shape" (by decide)⟩
